import Mathlib

/-!
Verification of the StudyEZ hybrid retrieval and re-ranking engine.

The definitions below are a shallow embedding of the TypeScript sources:

* `hybridSearchRel` and its stages model `hybridSearch` in `lib/db.ts`
  (the five-argument variant with the optional `documentIds` filter).
  The SQL query is modelled relationally: `ORDER BY` fixes the key order
  of the output but leaves the relative order of key-ties unspecified,
  exactly as PostgreSQL does, so each ranking stage is a predicate on
  its possible outputs rather than a function.
* `rerankDocuments`, `processRankings`, `rerankFallback` and
  `extractJSON` model `rerankDocuments` in `lib/rag.ts` (the code in
  `lib/services/llm-service.ts` performs the identical index
  conversion, range filter and truncation).  The external model call
  and the untyped `JSON.parse` are abstracted as parameters: the call
  either throws (`Except.error`) or returns a response text, and the
  parse either yields a list of entries or fails.
* `postQuery` models the `POST` handler of `app/api/query/route.ts`
  from the point where the candidate documents have been retrieved,
  and `validatedScope` models its `selectedDocumentIds` validation
  block.
-/

namespace StudyEZ

/-- A row of the `documents` table: one retrievable chunk.  The embedding
vector itself is abstracted: `hasEmbedding` models `embedding IS NOT NULL`
and the numeric signals live in `SearchEnv`.  `chunkType` models
`metadata.chunkType`. -/
structure Chunk where
  id : Int
  content : String
  userId : String
  hasEmbedding : Bool
  chunkType : String
deriving DecidableEq

/-- The per-query numeric signals of the SQL ranking query: the vector
distance `embedding <=> queryVector`, the lexical score
`ts_rank(to_tsvector(content), plainto_tsquery(query))`, and the match
predicate `to_tsvector(content) @@ plainto_tsquery(query)`.  They are
functions of the row once the query text and embedding are fixed. -/
structure SearchEnv where
  vDist : Chunk → ℚ
  tsScore : Chunk → ℚ
  ftsMatch : Chunk → Bool

/-- The optional `documentIds` restriction of `hybridSearch`: the filter
`id = ANY(documentIds)` is added exactly when `documentIds` is present and
non-empty (`hasDocumentFilter` in `lib/db.ts`). -/
def docFilter (documentIds : Option (List Int)) (c : Chunk) : Bool :=
  match documentIds with
  | none => true
  | some ids => if ids.length > 0 then ids.contains c.id else true

/-- The `WHERE` clause of the `vector_search` CTE:
`embedding IS NOT NULL AND user_id = ${userId}` plus the document filter. -/
def vectorPool (db : List Chunk) (userId : String)
    (documentIds : Option (List Int)) : List Chunk :=
  db.filter fun c => c.hasEmbedding && c.userId == userId && docFilter documentIds c

/-- The `WHERE` clause of the `fts_search` CTE:
`user_id = ${userId} AND to_tsvector(content) @@ plainto_tsquery(query)`
plus the document filter. -/
def ftsPool (env : SearchEnv) (db : List Chunk) (userId : String)
    (documentIds : Option (List Int)) : List Chunk :=
  db.filter fun c => c.userId == userId && env.ftsMatch c && docFilter documentIds c

/-- `ROW_NUMBER() OVER (ORDER BY ...)`: attach 1-based ranks to an already
ordered list. -/
def rankify (l : List Chunk) : List (Chunk × Nat) :=
  l.enum.map fun p => (p.2, p.1 + 1)

/-- The `vector_search` CTE of `hybridSearch`: some ordering of the
filtered rows that is ascending in vector distance (ties in unspecified
order, as in SQL), truncated to the per-signal pool size 20 and ranked. -/
def vectorSearchRel (db : List Chunk) (env : SearchEnv) (userId : String)
    (documentIds : Option (List Int)) (v : List (Chunk × Nat)) : Prop :=
  ∃ s : List Chunk, s.Perm (vectorPool db userId documentIds) ∧
    s.Sorted (fun a b => env.vDist a ≤ env.vDist b) ∧ v = rankify (s.take 20)

/-- The `fts_search` CTE of `hybridSearch`: some ordering of the filtered
rows that is descending in `ts_rank`, truncated to 20 and ranked. -/
def ftsSearchRel (db : List Chunk) (env : SearchEnv) (userId : String)
    (documentIds : Option (List Int)) (f : List (Chunk × Nat)) : Prop :=
  ∃ s : List Chunk, s.Perm (ftsPool env db userId documentIds) ∧
    s.Sorted (fun a b => env.tsScore b ≤ env.tsScore a) ∧ f = rankify (s.take 20)

/-- One RRF term of the `combined` CTE:
`COALESCE(1.0 / (60 + rank), 0.0)` for the row joined by id, `0` when the
side of the join is NULL. -/
def rrfTerm (l : List (Chunk × Nat)) (c : Chunk) : ℚ :=
  match l.find? (fun p => p.1.id == c.id) with
  | some p => 1 / (60 + (p.2 : ℚ))
  | none => 0

/-- The row set of `vector_search FULL OUTER JOIN fts_search ON v.id = f.id`,
each joined row represented by `COALESCE(v.*, f.*)`. -/
def joinedChunks (v f : List (Chunk × Nat)) : List Chunk :=
  v.map Prod.fst ++ (f.map Prod.fst).filter fun c => !(v.any fun p => p.1.id == c.id)

/-- The `combined` CTE: every joined row with its fused RRF score
`COALESCE(1.0/(60+v.rank),0) + COALESCE(1.0/(60+f.rank),0)`. -/
def fusedRows (v f : List (Chunk × Nat)) : List (Chunk × ℚ) :=
  (joinedChunks v f).map fun c => (c, rrfTerm v c + rrfTerm f c)

/-- The final `SELECT ... ORDER BY score DESC LIMIT ${limit}` of
`hybridSearch`: some ordering of the combined rows that is descending in
fused score (ties in unspecified order), truncated to `limit`. -/
def fuseRel (v f : List (Chunk × Nat)) (limit : Nat) (out : List (Chunk × ℚ)) : Prop :=
  ∃ s : List (Chunk × ℚ), s.Perm (fusedRows v f) ∧
    s.Sorted (fun a b => b.2 ≤ a.2) ∧ out = s.take limit

/-- `hybridSearch(query, embedding, userId, limit, documentIds)` of
`lib/db.ts`, relationally: the possible result lists of the single SQL
round trip. -/
def hybridSearchRel (db : List Chunk) (env : SearchEnv) (userId : String)
    (limit : Nat) (documentIds : Option (List Int)) (out : List (Chunk × ℚ)) : Prop :=
  ∃ v f, vectorSearchRel db env userId documentIds v ∧
    ftsSearchRel db env userId documentIds f ∧ fuseRel v f limit out

lemma mem_of_mem_rankify {c : Chunk} {r : Nat} {s : List Chunk}
    (h : (c, r) ∈ rankify s) : c ∈ s := by
  unfold rankify at h
  obtain ⟨p, hp, he⟩ := List.mem_map.mp h
  have hc : p.2 = c := (Prod.mk.injEq _ _ _ _).mp he |>.1
  have : p.2 ∈ s.enum.map Prod.snd := List.mem_map_of_mem Prod.snd hp
  rwa [List.enum_map_snd, hc] at this

lemma mem_pool_of_mem_ranked {pool s : List Chunk} {v : List (Chunk × Nat)}
    {c : Chunk} {r : Nat} (hperm : s.Perm pool) (hout : v = rankify (s.take 20))
    (hmem : (c, r) ∈ v) : c ∈ pool := by
  subst hout
  exact hperm.mem_iff.mp (List.mem_of_mem_take (mem_of_mem_rankify hmem))

lemma docFilter_some_of_ne {allow : List Int} (h : allow ≠ []) {c : Chunk}
    (hc : docFilter (some allow) c = true) : c.id ∈ allow := by
  have hlen : 0 < allow.length := List.length_pos.mpr h
  simp only [docFilter, if_pos hlen] at hc
  simpa using hc

/-- **C3.** For every retrieval with a (non-empty) allow-list, the
ownership and allow-list filters are applied inside the same ranking
query that computes the vector and lexical ranks: a chunk outside the
allow-list, or not owned by the requester, never appears in either
ranked list at any rank. -/
theorem hybridSearch_allowList_scopes_ranked_lists
    (db : List Chunk) (env : SearchEnv) (userId : String) (allow : List Int)
    (hallow : allow ≠ [])
    (v f : List (Chunk × Nat))
    (hv : vectorSearchRel db env userId (some allow) v)
    (hf : ftsSearchRel db env userId (some allow) f)
    (c : Chunk) (r : Nat) (hmem : (c, r) ∈ v ∨ (c, r) ∈ f) :
    c.userId = userId ∧ c.id ∈ allow := by
  rcases hmem with hm | hm
  · obtain ⟨s, hperm, _, hout⟩ := hv
    have hpool : c ∈ vectorPool db userId (some allow) :=
      mem_pool_of_mem_ranked hperm hout hm
    have hfilt := List.of_mem_filter hpool
    simp only [Bool.and_eq_true, beq_iff_eq] at hfilt
    exact ⟨hfilt.1.2, docFilter_some_of_ne hallow hfilt.2⟩
  · obtain ⟨s, hperm, _, hout⟩ := hf
    have hpool : c ∈ ftsPool env db userId (some allow) :=
      mem_pool_of_mem_ranked hperm hout hm
    have hfilt := List.of_mem_filter hpool
    simp only [Bool.and_eq_true, beq_iff_eq] at hfilt
    exact ⟨hfilt.1.1, docFilter_some_of_ne hallow hfilt.2⟩

/-- Fixture chunk owned by user `"u"`, with an embedding. -/
def chunkA : Chunk := ⟨1, "alpha", "u", true, "text"⟩

/-- Fixture chunk owned by user `"u"`, without an embedding. -/
def chunkB : Chunk := ⟨2, "beta", "u", false, "text"⟩

/-- Fixture environment in which nothing matches the lexical search. -/
def envA : SearchEnv := ⟨fun _ => 0, fun _ => 0, fun _ => false⟩

/-- Witness for C3: a concrete one-chunk retrieval with allow-list `[1]`. -/
theorem hybridSearch_allowList_scopes_ranked_lists_witness :
    chunkA.userId = "u" ∧ chunkA.id ∈ [(1 : Int)] :=
  hybridSearch_allowList_scopes_ranked_lists [chunkA] envA "u" [1] (by decide)
    [(chunkA, 1)] []
    ⟨[chunkA], by decide, by decide, by decide⟩
    ⟨[], by decide, by decide, by decide⟩
    chunkA 1 (Or.inl (by decide))

/-- Fixture environment in which exactly the chunk with id 2 matches the
lexical search. -/
def envB : SearchEnv := ⟨fun _ => 0, fun _ => 0, fun c => c.id == 2⟩

/-- The order claimed by the spec for the fused result: fused score
descending with ties broken by chunk id ascending. -/
def fusedTieOrder (a b : Chunk × ℚ) : Prop :=
  b.2 < a.2 ∨ (a.2 = b.2 ∧ a.1.id < b.1.id)

/-- **C4** (amended: the SQL `ORDER BY score DESC` fixes no order among
score ties, so the id-ascending tie-break is dropped).  Every fused result
carries score `1/(60+vectorRank) + 1/(60+ftsRank)` with an absent rank
contributing 0 (`rrfTerm`), is sorted by fused score descending, is
truncated to the fused pool size, and the full outer join keeps chunks
present in only one ranked list. -/
theorem fuse_scores_sorted_truncated
    (v f : List (Chunk × Nat)) (limit : Nat) (out : List (Chunk × ℚ))
    (h : fuseRel v f limit out) :
    (∀ p ∈ out, p.2 = rrfTerm v p.1 + rrfTerm f p.1) ∧
    out.Sorted (fun a b => b.2 ≤ a.2) ∧
    out.length ≤ limit ∧
    (∀ p ∈ v, ∃ q ∈ fusedRows v f, q.1.id = p.1.id) ∧
    (∀ p ∈ f, ∃ q ∈ fusedRows v f, q.1.id = p.1.id) := by
  obtain ⟨s, hperm, hsort, hout⟩ := h
  subst hout
  refine ⟨?_, ?_, ?_, ?_, ?_⟩
  · intro p hp
    have hps : p ∈ s := List.mem_of_mem_take hp
    have hpf : p ∈ fusedRows v f := hperm.mem_iff.mp hps
    obtain ⟨c, _, he⟩ := List.mem_map.mp hpf
    subst he
    rfl
  · exact List.Pairwise.sublist (List.take_sublist _ _) hsort
  · exact List.length_take_le _ _
  · intro p hp
    refine ⟨(p.1, rrfTerm v p.1 + rrfTerm f p.1), ?_, rfl⟩
    exact List.mem_map_of_mem _
      (List.mem_append_left _ (List.mem_map_of_mem Prod.fst hp))
  · intro p hp
    by_cases hva : (v.any fun q => q.1.id == p.1.id) = true
    · obtain ⟨x, hx, hxid⟩ := List.any_eq_true.mp hva
      refine ⟨(x.1, rrfTerm v x.1 + rrfTerm f x.1), ?_, ?_⟩
      · exact List.mem_map_of_mem _
          (List.mem_append_left _ (List.mem_map_of_mem Prod.fst hx))
      · exact beq_iff_eq.mp hxid
    · refine ⟨(p.1, rrfTerm v p.1 + rrfTerm f p.1), ?_, rfl⟩
      refine List.mem_map_of_mem _ (List.mem_append_right _ ?_)
      refine List.mem_filter.mpr ⟨List.mem_map_of_mem Prod.fst hp, ?_⟩
      simp only [Bool.not_eq_true] at hva
      simp only [Bool.not_eq_true']
      exact hva

lemma fusedRows_single : fusedRows [(chunkA, 1)] [] = [(chunkA, (1 : ℚ)/61)] := by
  simp [fusedRows, joinedChunks, rrfTerm, chunkA]
  norm_num

lemma fusedRows_pair :
    fusedRows [(chunkA, 1)] [(chunkB, 1)] =
      [(chunkA, (1 : ℚ)/61), (chunkB, (1 : ℚ)/61)] := by
  simp [fusedRows, joinedChunks, rrfTerm, chunkA, chunkB]
  norm_num

/-- Witness for the amended C4: a concrete fused pool where the single
vector-ranked chunk gets score `1/61`. -/
theorem fuse_scores_sorted_truncated_witness :
    (chunkA, (1 : ℚ)/61).2 =
      rrfTerm [(chunkA, 1)] (chunkA, (1 : ℚ)/61).1 +
      rrfTerm [] (chunkA, (1 : ℚ)/61).1 :=
  (fuse_scores_sorted_truncated [(chunkA, 1)] [] 10 [(chunkA, 1/61)]
    ⟨[(chunkA, 1/61)], by rw [fusedRows_single], List.sorted_singleton _, rfl⟩).1
    (chunkA, 1/61) (by simp)

/-- Counterexample to C4 as stated: with chunk 1 ranked only by the vector
signal and chunk 2 ranked only by the lexical signal, both fused scores are
`1/61`, and the retrieval admits the output that lists chunk 2 before
chunk 1 — the claimed id-ascending tie-break does not hold. -/
theorem fuse_tieOrder_counterexample :
    hybridSearchRel [chunkA, chunkB] envB "u" 10 none
      [(chunkB, (1 : ℚ)/61), (chunkA, (1 : ℚ)/61)] ∧
    ¬ List.Sorted fusedTieOrder [(chunkB, (1 : ℚ)/61), (chunkA, (1 : ℚ)/61)] := by
  constructor
  · refine ⟨[(chunkA, 1)], [(chunkB, 1)],
      ⟨[chunkA], by decide, by decide, by decide⟩,
      ⟨[chunkB], by decide, by decide, by decide⟩,
      ⟨[(chunkB, (1 : ℚ)/61), (chunkA, (1 : ℚ)/61)], ?_, ?_, rfl⟩⟩
    · rw [fusedRows_pair]
      exact List.Perm.swap _ _ _
    · simp [List.sorted_cons]
  · intro hs
    have h := (List.sorted_cons.mp hs).1 (chunkA, (1 : ℚ)/61) (by simp)
    rcases h with h | ⟨-, h⟩
    · exact absurd h (by norm_num)
    · revert h
      decide

/-- One `{index, relevanceScore}` entry of the reranker's JSON output.
Indices are `Int` because the model may return anything, including
negative numbers. -/
structure RankEntry where
  index : Int
  relevanceScore : ℚ
deriving DecidableEq

/-- The markdown code-fence stripping applied to the response text before
parsing, as in `rerankDocuments` (`lib/rag.ts`) and
`AIResponseParser.extractJSON`: if the text contains a ```` ```json ````
fence take what follows it up to the closing fence, else if it contains a
plain ```` ``` ```` fence take its inside, else the text itself. -/
def extractJSON (s : String) : String :=
  if (s.splitOn "```json").length > 1 then
    ((((s.splitOn "```json").getD 1 "").splitOn "```").getD 0 "").trim
  else if (s.splitOn "```").length > 1 then
    ((((s.splitOn "```").getD 1 "").splitOn "```").getD 0 "").trim
  else s

/-- The processing of a successfully parsed reranker response in
`rerankDocuments` (`lib/rag.ts`; identical code in
`lib/services/llm-service.ts`): 1-based indices become 0-based, entries
with an index outside `[0, n)` are dropped, and the first `topK`
survivors are kept.  There is no de-duplication step. -/
def processRankings (rankings : List RankEntry) (n : Nat) (topK : Nat) : List RankEntry :=
  ((rankings.map fun r => ⟨r.index - 1, r.relevanceScore⟩).filter
      fun r => decide (0 ≤ r.index ∧ r.index < (n : Int))).take topK

/-- The deterministic fallback of `rerankDocuments`: the first `topK`
documents in fused order, each with
`relevanceScore = min(score * 100, 100)`. -/
def rerankFallback (documents : List (String × ℚ)) (topK : Nat) : List RankEntry :=
  (documents.enum.map fun p => ⟨(p.1 : Int), min (p.2.2 * 100) 100⟩).take topK

/-- `rerankDocuments(query, documents, topK)` of `lib/rag.ts`.  The
external model call is `call`: `Except.error` means the call threw, and
the error propagates because the call sits outside the `try` block.
`parse` abstracts `JSON.parse` plus the cast to a list of entries;
`none` is the `catch` path (unparseable or not a list). -/
def rerankDocuments (documents : List (String × ℚ)) (topK : Nat)
    (call : Except String String) (parse : String → Option (List RankEntry)) :
    Except String (List RankEntry) :=
  match call with
  | .error e => .error e
  | .ok responseText =>
    match parse (extractJSON responseText.trim) with
    | some rankings => .ok (processRankings rankings documents.length topK)
    | none => .ok (rerankFallback documents topK)

/-- A source entry of the API response (`SourceDocument` in
`lib/types/api-types.ts`), as built by the `POST` handler. -/
structure Source where
  text : String
  score : ℚ
  relevanceScore : ℚ
  isVisual : Bool
deriving DecidableEq

/-- The handler's possible responses: a 400, the catch-all error response
of `ErrorHandler.handleRouteError`, or a success payload. -/
inductive RouteResult where
  | badRequest (msg : String)
  | serverError (msg : String)
  | success (answer : String) (sources : List Source) (confidenceScore : Int)
deriving DecidableEq

/-- The per-document source construction of the `POST` handler: content
truncated to 200 characters with an ellipsis, similarity score, relevance
score, and the visual-chunk flag from `metadata.chunkType`. -/
def mkSource (c : Chunk) (score relevance : ℚ) : Source :=
  { text := c.content.take 200 ++ (if 200 < c.content.length then "..." else "")
    score := score
    relevanceScore := relevance
    isVisual := c.chunkType == "visual" }

/-- Placeholder for the (unreachable) out-of-range access
`candidateDocs[r.index]`. -/
def dummyScored : Chunk × ℚ := (⟨0, "", "", false, ""⟩, 0)

/-- Outcome of the `POST` handler together with which external calls the
handler made on the way. -/
structure PostResult where
  result : RouteResult
  rerankCalled : Bool
  generateCalled : Bool
deriving DecidableEq

/-- The `POST` handler of `app/api/query/route.ts` from the point where
`hybridSearch` has produced `candidateDocs`: the empty-pool
short-circuit, the rerank call with its two fallbacks, the generation
call, confidence scoring and source construction.  `gen` is
`generateResponse` on the context strings; an `Except.error` from
`rerankDocuments` or `gen` is a thrown error, turned into an error
response by the surrounding `catch`. -/
def postQuery (candidateDocs : List (Chunk × ℚ)) (call : Except String String)
    (parse : String → Option (List RankEntry))
    (gen : List String → Except String String) : PostResult :=
  if candidateDocs.isEmpty then
    { result := .success
        "No relevant study materials found. Please upload some documents first." [] 0
      rerankCalled := false
      generateCalled := false }
  else
    match rerankDocuments (candidateDocs.map fun d => (d.1.content, d.2)) 3 call parse with
    | .error _ =>
      { result := .serverError "Failed to process query"
        rerankCalled := true
        generateCalled := false }
    | .ok reranked =>
      let topDocs0 := reranked.map fun r =>
        (candidateDocs.getD r.index.toNat dummyScored, r.relevanceScore)
      let topDocs := if topDocs0.isEmpty then
          (candidateDocs.take 3).map fun d => (d, min (d.2 * 100) 100)
        else topDocs0
      match gen (topDocs.map fun t => t.1.1.content) with
      | .error _ =>
        { result := .serverError "Failed to process query"
          rerankCalled := true
          generateCalled := true }
      | .ok answer =>
        let avgRelevance : ℚ := if topDocs.length > 0 then
            (topDocs.map fun t => t.2).sum / (topDocs.length : ℚ)
          else 0
        { result := .success answer
            (topDocs.map fun t => mkSource t.1.1 t.1.2 t.2)
            (round avgRelevance)
          rerankCalled := true
          generateCalled := true }

/-- Modelled from the spec: `validateDocumentOwnership(ids, userId)` is
not among the provided sources — only its caller in
`app/api/query/route.ts` and the repository's API documentation are.
Per the spec's authorization scoping and the caller's comparison of its
length with the requested length, it returns the subset of the requested
document ids owned by the requester; `owner` is the document-ownership
map of the store. -/
def validateDocumentOwnership (ids : List Int) (owner : Int → Option String)
    (userId : String) : List Int :=
  ids.filter fun i => owner i == some userId

/-- The `selectedDocumentIds` validation block of the `POST` handler: an
absent scope passes through unfiltered; a present scope is validated
only when non-empty; an empty owned subset is rejected with a 400;
otherwise the (possibly narrowed) owned subset becomes the filter. -/
def validatedScope (selectedDocumentIds : Option (List Int))
    (owner : Int → Option String) (userId : String) :
    Except String (Option (List Int)) :=
  match selectedDocumentIds with
  | none => .ok none
  | some ids =>
    if ids.length > 0 then
      let validated := validateDocumentOwnership ids owner userId
      if validated.length = 0 then
        .error "No valid documents found for the provided IDs"
      else .ok (some validated)
    else .ok none

/-- The retrieval a request with document scope `sel` performs: scope
validation followed by `hybridSearch` with fused pool size 10. -/
def requestCandidates (sel : Option (List Int)) (owner : Int → Option String)
    (db : List Chunk) (env : SearchEnv) (userId : String)
    (out : List (Chunk × ℚ)) : Prop :=
  ∃ scope, validatedScope sel owner userId = .ok scope ∧
    hybridSearchRel db env userId 10 scope out

lemma rrfTerm_nonneg (l : List (Chunk × Nat)) (c : Chunk) : 0 ≤ rrfTerm l c := by
  unfold rrfTerm
  cases l.find? fun p => p.1.id == c.id with
  | none => exact le_refl 0
  | some p =>
    apply div_nonneg
    · norm_num
    · positivity

lemma rerankFallback_map_topDocs (cands : List (Chunk × ℚ)) (k : Nat) :
    (rerankFallback (cands.map fun d => (d.1.content, d.2)) k).map
      (fun r => (cands.getD r.index.toNat dummyScored, r.relevanceScore)) =
    (cands.take k).map fun d => (d, min (d.2 * 100) 100) := by
  apply List.ext_getElem?
  intro i
  simp only [rerankFallback, List.map_take, List.getElem?_take, List.getElem?_map,
    List.getElem?_enum]
  by_cases hik : i < k
  · simp only [if_pos hik]
    cases hq : cands[i]? with
    | none => simp [hq]
    | some d => simp [hq, List.getD_eq_getElem?_getD]
  · simp only [if_neg hik]

lemma take_map_ne_nil {cands : List (Chunk × ℚ)} (hne : cands ≠ []) (k : Nat)
    (hk : k ≠ 0) :
    ((cands.take k).map fun d => ((d : Chunk × ℚ), min (d.2 * 100) 100)) ≠ [] := by
  simp [List.take_eq_nil_iff, hne, hk]

lemma postQuery_parse_none_eq (cands : List (Chunk × ℚ)) (text : String)
    (parse : String → Option (List RankEntry))
    (gen : List String → Except String String) (answer : String)
    (hne : cands ≠ [])
    (hparse : parse (extractJSON text.trim) = none)
    (hgen : ∀ ctx, gen ctx = .ok answer) :
    postQuery cands (.ok text) parse gen =
      { result := .success answer
          ((cands.take 3).map fun d => mkSource d.1 d.2 (min (d.2 * 100) 100))
          (round ((((cands.take 3).map fun d => min (d.2 * 100) 100).sum) /
            ((cands.take 3).length : ℚ)))
        rerankCalled := true
        generateCalled := true } := by
  have hE : cands.isEmpty = false := by simpa [List.isEmpty_iff] using hne
  have hlen : 0 < (cands.take 3).length := by
    simp only [List.length_take]
    exact lt_min (by norm_num) (List.length_pos.mpr hne)
  simp only [postQuery, rerankDocuments, hE, Bool.false_eq_true, if_false, hparse,
    rerankFallback_map_topDocs, hgen]
  rw [if_neg (by simpa [List.isEmpty_iff] using take_map_ne_nil hne 3 (by norm_num))]
  simp only [List.map_map, Function.comp_def, List.length_map]
  rw [if_pos (by simpa using hlen)]

lemma postQuery_parse_some_empty_eq (cands : List (Chunk × ℚ)) (text : String)
    (parse : String → Option (List RankEntry))
    (gen : List String → Except String String) (answer : String)
    (rk : List RankEntry)
    (hne : cands ≠ [])
    (hparse : parse (extractJSON text.trim) = some rk)
    (h0 : processRankings rk cands.length 3 = [])
    (hgen : ∀ ctx, gen ctx = .ok answer) :
    postQuery cands (.ok text) parse gen =
      { result := .success answer
          ((cands.take 3).map fun d => mkSource d.1 d.2 (min (d.2 * 100) 100))
          (round ((((cands.take 3).map fun d => min (d.2 * 100) 100).sum) /
            ((cands.take 3).length : ℚ)))
        rerankCalled := true
        generateCalled := true } := by
  have hE : cands.isEmpty = false := by simpa [List.isEmpty_iff] using hne
  have hlen : 0 < (cands.take 3).length := by
    simp only [List.length_take]
    exact lt_min (by norm_num) (List.length_pos.mpr hne)
  simp only [postQuery, rerankDocuments, hE, Bool.false_eq_true, if_false, hparse,
    List.length_map, h0, List.map_nil, List.isEmpty_nil, if_true, hgen]
  simp only [List.map_map, Function.comp_def, List.length_map]
  rw [if_pos (by simpa using hlen)]

lemma postQuery_parse_some_nonempty_eq (cands : List (Chunk × ℚ)) (text : String)
    (parse : String → Option (List RankEntry))
    (gen : List String → Except String String) (answer : String)
    (rk : List RankEntry)
    (hne : cands ≠ [])
    (hparse : parse (extractJSON text.trim) = some rk)
    (h0 : processRankings rk cands.length 3 ≠ [])
    (hgen : ∀ ctx, gen ctx = .ok answer) :
    postQuery cands (.ok text) parse gen =
      { result := .success answer
          ((processRankings rk cands.length 3).map fun r =>
            mkSource (cands.getD r.index.toNat dummyScored).1
              (cands.getD r.index.toNat dummyScored).2 r.relevanceScore)
          (round ((((processRankings rk cands.length 3).map
              RankEntry.relevanceScore).sum) /
            ((processRankings rk cands.length 3).length : ℚ)))
        rerankCalled := true
        generateCalled := true } := by
  have hE : cands.isEmpty = false := by simpa [List.isEmpty_iff] using hne
  have hlen : 0 < (processRankings rk cands.length 3).length :=
    List.length_pos.mpr h0
  have hmap : ((processRankings rk cands.length 3).map fun r =>
      ((cands.getD r.index.toNat dummyScored : Chunk × ℚ), r.relevanceScore)) ≠ [] := by
    simpa using h0
  simp only [postQuery, rerankDocuments, hE, Bool.false_eq_true, if_false, hparse,
    List.length_map, hgen]
  rw [if_neg (by simpa [List.isEmpty_iff] using hmap)]
  simp only [List.map_map, Function.comp_def, List.length_map]
  rw [if_pos (by simpa using hlen)]

lemma success_of_postQuery (cands : List (Chunk × ℚ)) (call : Except String String)
    (parse : String → Option (List RankEntry))
    (gen : List String → Except String String)
    (ans : String) (srcs : List Source) (conf : Int)
    (h : (postQuery cands call parse gen).result = .success ans srcs conf) :
    (srcs = [] ∧ conf = 0) ∨
    ∃ topDocs : List ((Chunk × ℚ) × ℚ),
      srcs = topDocs.map (fun t => mkSource t.1.1 t.1.2 t.2) ∧
      conf = round (if 0 < topDocs.length then
        (topDocs.map fun t => t.2).sum / (topDocs.length : ℚ) else (0 : ℚ)) := by
  simp only [postQuery] at h
  split at h
  · injection h with h1 h2 h3
    exact Or.inl ⟨h2.symm, h3.symm⟩
  · split at h
    · exact absurd h (by simp)
    · split at h
      · exact absurd h (by simp)
      · injection h with h1 h2 h3
        exact Or.inr ⟨_, h2.symm, h3.symm⟩

lemma hybridSearchRel_score_nonneg {db : List Chunk} {env : SearchEnv}
    {userId : String} {limit : Nat} {documentIds : Option (List Int)}
    {out : List (Chunk × ℚ)}
    (h : hybridSearchRel db env userId limit documentIds out) :
    ∀ p ∈ out, 0 ≤ p.2 := by
  obtain ⟨v, f, _, _, s, hperm, _, hout⟩ := h
  subst hout
  intro p hp
  have hpf : p ∈ fusedRows v f := hperm.mem_iff.mp (List.mem_of_mem_take hp)
  obtain ⟨c, _, he⟩ := List.mem_map.mp hpf
  subst he
  exact add_nonneg (rrfTerm_nonneg v c) (rrfTerm_nonneg f c)

/-- **C6** (amended: there is no de-duplication step — duplicate indices
survive processing; what holds is discard-out-of-range plus truncation).
Every processed entry has a 0-based index inside `[0, n)`, at most `topK`
entries survive, and the output is an order-preserving sublist of the
index-converted input. -/
theorem processRankings_range_truncate (rankings : List RankEntry) (n topK : Nat) :
    (∀ e ∈ processRankings rankings n topK, 0 ≤ e.index ∧ e.index < (n : Int)) ∧
    (processRankings rankings n topK).length ≤ topK ∧
    (processRankings rankings n topK).Sublist
      (rankings.map fun r => ⟨r.index - 1, r.relevanceScore⟩) := by
  refine ⟨?_, List.length_take_le _ _,
    (List.take_sublist _ _).trans (List.filter_sublist _)⟩
  intro e he
  have hm : e ∈ (rankings.map fun r =>
      (⟨r.index - 1, r.relevanceScore⟩ : RankEntry)).filter
      (fun r => decide (0 ≤ r.index ∧ r.index < (n : Int))) :=
    List.mem_of_mem_take he
  exact of_decide_eq_true (List.mem_filter.mp hm).2

/-- Witness for the amended C6: the first processed entry of a concrete
response against pool size 5 is in range. -/
theorem processRankings_range_truncate_witness :
    0 ≤ (⟨0, 90⟩ : RankEntry).index ∧ (⟨0, 90⟩ : RankEntry).index < ((5 : Nat) : Int) :=
  (processRankings_range_truncate [⟨1, 90⟩, ⟨1, 80⟩, ⟨2, 70⟩] 5 3).1 ⟨0, 90⟩ (by decide)

/-- Counterexample to C6 as stated: the parsed entries with 1-based
indices `[1, 1, 2]` against pool size 5 are NOT de-duplicated — the
0-based index 0 survives twice in the processed output. -/
theorem processRankings_no_dedup_counterexample :
    processRankings [⟨1, 90⟩, ⟨1, 80⟩, ⟨2, 70⟩] 5 3 =
      [⟨0, 90⟩, ⟨0, 80⟩, ⟨1, 70⟩] ∧
    ¬ (processRankings [⟨1, 90⟩, ⟨1, 80⟩, ⟨2, 70⟩] 5 3).Pairwise
        (fun a b => a.index ≠ b.index) :=
  ⟨by decide, by decide⟩

/-- **C9.** With an empty candidate pool the handler short-circuits: it
returns the canned no-relevant-materials success with empty sources and
confidence 0, and calls neither the reranker nor the generator. -/
theorem postQuery_empty_shortcircuit (call : Except String String)
    (parse : String → Option (List RankEntry))
    (gen : List String → Except String String) :
    postQuery [] call parse gen =
      { result := .success
          "No relevant study materials found. Please upload some documents first." [] 0
        rerankCalled := false
        generateCalled := false } := rfl

/-- Counterexample to C2 as stated: when the external reranker call
throws (it sits outside the `try` block), the thrown error reaches the
route's `catch` and the query returns an error response — not a
successful outcome with fallback results. -/
theorem rerank_throw_surfaces_counterexample :
    postQuery [(chunkA, 1)] (.error "network error") (fun _ => some [])
      (fun _ => .ok "answer") =
      { result := .serverError "Failed to process query"
        rerankCalled := true
        generateCalled := false } := rfl

/-- **C2** (amended: only a received-but-malformed reranker response is
recovered by the deterministic fallback; a thrown reranker call
propagates and surfaces as a query error, per the counterexample).  For
every malformed response, the query succeeds and the final result set is
the fused pool's top 3 entries, each with
`relevanceScore = min(fusedScore * 100, 100)`. -/
theorem rerank_malformed_recovered (cands : List (Chunk × ℚ)) (text : String)
    (parse : String → Option (List RankEntry))
    (gen : List String → Except String String) (answer : String)
    (hne : cands ≠ [])
    (hparse : parse (extractJSON text.trim) = none)
    (hgen : ∀ ctx, gen ctx = .ok answer) :
    ∃ conf, (postQuery cands (.ok text) parse gen).result =
      .success answer
        ((cands.take 3).map fun d => mkSource d.1 d.2 (min (d.2 * 100) 100)) conf :=
  ⟨_, by rw [postQuery_parse_none_eq cands text parse gen answer hne hparse hgen]⟩

/-- Witness for the amended C2: a concrete one-candidate query with an
unparseable reranker response succeeds with the fallback result set. -/
theorem rerank_malformed_recovered_witness :
    ∃ conf, (postQuery [(chunkA, 1)] (.ok "x") (fun _ => none)
      (fun _ => .ok "ans")).result =
      .success "ans"
        (([(chunkA, (1 : ℚ))].take 3).map fun d =>
          mkSource d.1 d.2 (min (d.2 * 100) 100)) conf :=
  rerank_malformed_recovered [(chunkA, 1)] "x" (fun _ => none)
    (fun _ => .ok "ans") "ans" (by simp) rfl (fun _ => rfl)

/-- **C5.** Given a received reranker response: the fallback is applied
exactly when response processing yields zero usable entries (parse
failure, or every entry discarded) — then the final result set is the
fused pool's top 3 with the fallback scores; when at least one valid
entry survives, the partial valid output is accepted as-is and the
fallback is not applied. -/
theorem fallback_iff_zero_usable (cands : List (Chunk × ℚ)) (text : String)
    (parse : String → Option (List RankEntry))
    (gen : List String → Except String String) (answer : String)
    (hne : cands ≠ []) (hgen : ∀ ctx, gen ctx = .ok answer) :
    ((parse (extractJSON text.trim) = none ∨
      ∃ rk, parse (extractJSON text.trim) = some rk ∧
        processRankings rk cands.length 3 = []) →
      (postQuery cands (.ok text) parse gen).result =
        .success answer
          ((cands.take 3).map fun d => mkSource d.1 d.2 (min (d.2 * 100) 100))
          (round ((((cands.take 3).map fun d => min (d.2 * 100) 100).sum) /
            ((cands.take 3).length : ℚ)))) ∧
    (∀ rk, parse (extractJSON text.trim) = some rk →
      processRankings rk cands.length 3 ≠ [] →
      (postQuery cands (.ok text) parse gen).result =
        .success answer
          ((processRankings rk cands.length 3).map fun r =>
            mkSource (cands.getD r.index.toNat dummyScored).1
              (cands.getD r.index.toNat dummyScored).2 r.relevanceScore)
          (round ((((processRankings rk cands.length 3).map
              RankEntry.relevanceScore).sum) /
            ((processRankings rk cands.length 3).length : ℚ)))) := by
  constructor
  · rintro (hp | ⟨rk, hp, h0⟩)
    · rw [postQuery_parse_none_eq cands text parse gen answer hne hp hgen]
    · rw [postQuery_parse_some_empty_eq cands text parse gen answer rk hne hp h0 hgen]
  · intro rk hp h0
    rw [postQuery_parse_some_nonempty_eq cands text parse gen answer rk hne hp h0 hgen]

/-- Witness for C5: a single valid surviving entry (1-based index 1,
score 80) is accepted as-is. -/
theorem fallback_iff_zero_usable_witness :
    (postQuery [(chunkA, 1)] (.ok "x") (fun _ => some [⟨1, 80⟩])
      (fun _ => .ok "ans")).result =
      .success "ans"
        ((processRankings [⟨1, 80⟩] [(chunkA, (1 : ℚ))].length 3).map fun r =>
          mkSource ([(chunkA, (1 : ℚ))].getD r.index.toNat dummyScored).1
            ([(chunkA, (1 : ℚ))].getD r.index.toNat dummyScored).2 r.relevanceScore)
        (round ((((processRankings [⟨1, 80⟩] [(chunkA, (1 : ℚ))].length 3).map
            RankEntry.relevanceScore).sum) /
          ((processRankings [⟨1, 80⟩] [(chunkA, (1 : ℚ))].length 3).length : ℚ))) :=
  (fallback_iff_zero_usable [(chunkA, 1)] "x" (fun _ => some [⟨1, 80⟩])
    (fun _ => .ok "ans") "ans" (by simp) (fun _ => rfl)).2 [⟨1, 80⟩] rfl (by decide)

/-- **C8.** Whenever the handler returns a success, the confidence score
equals `round` of the mean relevanceScore over the final result set, and
equals 0 when that set is empty. -/
theorem confidence_is_rounded_mean (cands : List (Chunk × ℚ))
    (call : Except String String) (parse : String → Option (List RankEntry))
    (gen : List String → Except String String)
    (ans : String) (srcs : List Source) (conf : Int)
    (h : (postQuery cands call parse gen).result = .success ans srcs conf) :
    conf = if srcs.isEmpty then 0
      else round ((srcs.map Source.relevanceScore).sum / (srcs.length : ℚ)) := by
  rcases success_of_postQuery cands call parse gen ans srcs conf h with
    ⟨hs, hc⟩ | ⟨td, hs, hc⟩
  · subst hs
    simpa using hc
  · subst hs
    rw [hc]
    by_cases htd : td = []
  -- the two branches
    · subst htd
      simp
    · rw [if_pos (by simpa using List.length_pos.mpr htd),
        if_neg (by simpa using htd)]
      rw [List.map_map, List.length_map]
      rfl

/-- Witness for C8: a concrete successful run whose single source has
relevanceScore 80 gets confidence 80. -/
theorem confidence_is_rounded_mean_witness :
    (80 : Int) = if ([mkSource chunkA 1 80] : List Source).isEmpty then 0
      else round (([mkSource chunkA 1 80].map Source.relevanceScore).sum /
        (([mkSource chunkA 1 80] : List Source).length : ℚ)) :=
  confidence_is_rounded_mean [(chunkA, 1)] (.ok "x") (fun _ => some [⟨1, 80⟩])
    (fun _ => .ok "ans") "ans" [mkSource chunkA 1 80] 80 (by
      have hpr : processRankings [(⟨1, 80⟩ : RankEntry)] [(chunkA, (1 : ℚ))].length 3 =
          [⟨0, 80⟩] := by decide
      rw [postQuery_parse_some_nonempty_eq [(chunkA, 1)] "x" (fun _ => some [⟨1, 80⟩])
        (fun _ => .ok "ans") "ans" [⟨1, 80⟩] (by simp) rfl (by decide) (fun _ => rfl),
        hpr]
      norm_num [round_eq])

/-- Counterexample to C7 as stated: the reranker's returned
relevanceScore is passed through without any clamping, so a response
entry scored 150 yields a final result set (and confidence) outside
`[0, 100]`. -/
theorem relevance_unbounded_counterexample :
    (postQuery [(chunkA, 1)] (.ok "resp") (fun _ => some [⟨1, 150⟩])
      (fun _ => .ok "ans")).result =
      .success "ans" [mkSource chunkA 1 150] 150 ∧
    ¬ ((mkSource chunkA 1 150).relevanceScore ≤ 100) := by
  constructor
  · have hpr : processRankings [(⟨1, 150⟩ : RankEntry)] [(chunkA, (1 : ℚ))].length 3 =
        [⟨0, 150⟩] := by decide
    rw [postQuery_parse_some_nonempty_eq [(chunkA, 1)] "resp" (fun _ => some [⟨1, 150⟩])
      (fun _ => .ok "ans") "ans" [⟨1, 150⟩] (by simp) rfl (by decide) (fun _ => rfl),
      hpr]
    norm_num [round_eq]
  · show ¬ ((150 : ℚ) ≤ 100)
    norm_num

/-- **C7** (amended: the bound is guaranteed only for fallback-assigned
scores; model-returned scores pass through unvalidated, per the
counterexample).  When the candidates come from the retrieval — hence
carry nonnegative fused scores — and the fallback is applied, every
relevanceScore in the final result set is in `[0, 100]`. -/
theorem fallback_relevance_bounded (db : List Chunk) (env : SearchEnv)
    (userId : String) (documentIds : Option (List Int))
    (cands : List (Chunk × ℚ)) (text : String)
    (parse : String → Option (List RankEntry))
    (gen : List String → Except String String) (answer : String)
    (hret : hybridSearchRel db env userId 10 documentIds cands)
    (hne : cands ≠ [])
    (hparse : parse (extractJSON text.trim) = none)
    (hgen : ∀ ctx, gen ctx = .ok answer)
    (s : Source)
    (hs : s ∈ ((cands.take 3).map fun d => mkSource d.1 d.2 (min (d.2 * 100) 100)))
    (hres : (postQuery cands (.ok text) parse gen).result =
      .success answer
        ((cands.take 3).map fun d => mkSource d.1 d.2 (min (d.2 * 100) 100))
        (round ((((cands.take 3).map fun d => min (d.2 * 100) 100).sum) /
          ((cands.take 3).length : ℚ)))) :
    0 ≤ s.relevanceScore ∧ s.relevanceScore ≤ 100 := by
  obtain ⟨d, hd, he⟩ := List.mem_map.mp hs
  have hd0 : 0 ≤ d.2 :=
    hybridSearchRel_score_nonneg hret d (List.mem_of_mem_take hd)
  subst he
  constructor
  · exact le_min (mul_nonneg hd0 (by norm_num)) (by norm_num)
  · exact min_le_right _ _

/-- Witness for the amended C7: a concrete retrieval gives the single
candidate fused score `1/61`; after fallback its relevanceScore is
`min(100/61, 100)`, which is within bounds. -/
theorem fallback_relevance_bounded_witness :
    0 ≤ (mkSource chunkA (1/61) (min ((1/61 : ℚ) * 100) 100)).relevanceScore ∧
      (mkSource chunkA (1/61) (min ((1/61 : ℚ) * 100) 100)).relevanceScore ≤ 100 :=
  fallback_relevance_bounded [chunkA] envA "u" none [(chunkA, 1/61)] "x"
    (fun _ => none) (fun _ => .ok "ans") "ans"
    ⟨[(chunkA, 1)], [],
      ⟨[chunkA], by decide, by decide, by decide⟩,
      ⟨[], by decide, by decide, by decide⟩,
      ⟨[(chunkA, 1/61)], by rw [fusedRows_single], List.sorted_singleton _, rfl⟩⟩
    (by simp) rfl (fun _ => rfl)
    (mkSource chunkA (1/61) (min ((1/61 : ℚ) * 100) 100)) (by simp)
    (by rw [postQuery_parse_none_eq [(chunkA, 1/61)] "x" (fun _ => none)
      (fun _ => .ok "ans") "ans" (by simp) rfl (fun _ => rfl)])

/-- **C1** (evaluation of the code at the failing input): user `alice`
owns document 1 but not document 2; a request scoped to `[1, 2]` is NOT
rejected — the handler silently narrows the scope to the owned subset
`[1]` and proceeds.  This contradicts the claim and the repository's own
API documentation, which promises a 400 error for any unauthorized id. -/
theorem scope_narrowed_not_rejected :
    validatedScope (some [1, 2])
      (fun i => if i = 1 then some "alice" else if i = 2 then some "bob" else none)
      "alice" = .ok (some [1]) := rfl

/-- **C10.** A present-but-empty `selectedDocumentIds` is not rejected:
the validation step is skipped, no document filter is installed, and the
retrieval is the same relation as for a request that omits the field
entirely. -/
theorem emptyScope_same_as_omitted (owner : Int → Option String) (userId : String) :
    validatedScope (some []) owner userId = .ok none ∧
    validatedScope none owner userId = .ok none ∧
    ∀ db env out, requestCandidates (some []) owner db env userId out ↔
      requestCandidates none owner db env userId out :=
  ⟨rfl, rfl, fun _ _ _ => Iff.rfl⟩

/-- Witness for C10 at a concrete ownership map and user. -/
theorem emptyScope_same_as_omitted_witness :
    validatedScope (some []) (fun _ => none) "u" = .ok none :=
  (emptyScope_same_as_omitted (fun _ => none) "u").1

end StudyEZ
